import Mathlib

/-!
Verification of the Tricode-cli tool-execution runtime (`src/agent/tools.py`)
against its natural-language specification.

The Python source is shallowly embedded: pure helpers become Lean functions;
module-level mutable globals become explicit state records threaded through the
functions; filesystem, subprocess, regex and hashing effects are abstracted as
explicit function parameters.  Paths are POSIX (`os.sep = "/"`); Python `str`
indices are modelled as codepoint indices over `List Char`.
-/

/-! ## PathSandbox: `resolve_path` / `validate_path` (tools.py lines 93-110) -/

/-- Environment for the path sandbox: the module globals `WORK_DIR` and
`BYPASS_WORK_DIR_LIMIT`, plus the filesystem-dependent primitives
`os.path.realpath` and `os.path.expanduser`, kept abstract. -/
structure SandboxEnv where
  workRoot : String
  bypass : Bool
  realpath : String → String
  expanduser : String → String

/-- Python `str.startswith`, as a structural check on codepoints. -/
def strStarts (s pre : String) : Bool := pre.data.isPrefixOf s.data

/-- Python `str.endswith`, as a structural check on codepoints. -/
def strEnds (s suf : String) : Bool := suf.data.reverse.isPrefixOf s.data.reverse

/-- `os.path.isabs` on POSIX: the path starts with a slash. -/
def isAbsPath (p : String) : Bool := strStarts p "/"

/-- `os.path.join(a, b)` on POSIX, for the two-argument case used in
`resolve_path`. -/
def joinPath (a b : String) : String :=
  if isAbsPath b then b
  else if a = "" || strEnds a "/" then a ++ b
  else a ++ "/" ++ b

/-- `resolve_path` from tools.py: expand a leading home marker, resolve
relative paths against `WORK_DIR`, canonicalize with `realpath`. -/
def resolve_path (env : SandboxEnv) (path : String) : String :=
  let expanded := env.expanduser path
  if isAbsPath expanded then env.realpath expanded
  else env.realpath (joinPath env.workRoot expanded)

/-- The containment test of `validate_path`: the canonical path equals
`WORK_DIR` or extends it past a separator. -/
def insideWorkRoot (root p : String) : Bool :=
  strStarts p (root ++ "/") || p == root

/-- `validate_path` from tools.py: unless bypass is set, re-canonicalize and
check containment in `WORK_DIR`; returns `(ok, errorMessage)`. -/
def validate_path (env : SandboxEnv) (path : String) : Bool × String :=
  if env.bypass then (true, "")
  else
    let real_path := env.realpath path
    if insideWorkRoot env.workRoot real_path then (true, "")
    else (false, "Access denied: " ++ path ++ " is outside work directory " ++ env.workRoot)

/-! ## Shared text helpers (tools.py lines 827-837, 967-992) -/

/-- Python `''.join` over a list of strings. -/
def joinAll : List String → String
  | [] => ""
  | s :: ss => s ++ joinAll ss

/-- Python `sep.join(parts)`. -/
def joinWith (sep : String) : List String → String
  | [] => ""
  | [s] => s
  | s :: ss => s ++ sep ++ joinWith sep ss

/-- Worker for `splitKeepEnds`: accumulate the current line (reversed). -/
def splitKeepEndsAux : List Char → List Char → List String
  | [], acc => if acc = [] then [] else [String.mk acc.reverse]
  | c :: cs, acc =>
      if c = '\n' then String.mk (acc.reverse ++ ['\n']) :: splitKeepEndsAux cs []
      else splitKeepEndsAux cs (c :: acc)

/-- Python `str.splitlines(keepends=True)` restricted to `\n` line breaks. -/
def splitKeepEnds (s : String) : List String := splitKeepEndsAux s.data []

/-- Python `str.rstrip()`: drop trailing whitespace. -/
def pyRstrip (s : String) : String :=
  String.mk (s.data.reverse.dropWhile Char.isWhitespace).reverse

/-- Number of occurrences of a character, Python `str.count(c)`. -/
def countChar (s : String) (c : Char) : Nat := s.data.count c

/-- Worker for `_with_line_numbers`: prefix each line with `n: `. -/
def numberLines : List String → Nat → List String
  | [], _ => []
  | l :: ls, n => (toString n ++ ": " ++ l) :: numberLines ls (n + 1)

/-- `_with_line_numbers` from tools.py: prefix each line of the content with
its 1-based line number; empty content is returned unchanged. -/
def _with_line_numbers (content : String) (start_number : Nat) : String :=
  if content = "" then content
  else joinAll (numberLines (splitKeepEnds content) (max 1 start_number))

/-- Worker for `_build_line_starts`: offsets just after each newline. -/
def buildStartsAux : List Char → Nat → List Nat
  | [], _ => []
  | c :: cs, i => if c = '\n' then (i + 1) :: buildStartsAux cs (i + 1) else buildStartsAux cs (i + 1)

/-- `_build_line_starts` from tools.py: offset of the start of each line. -/
def _build_line_starts (text : List Char) : List Nat :=
  0 :: buildStartsAux text 0

/-- `_index_to_line` from tools.py: 1-based line number of a byte offset.  The
source runs a binary search over the sorted `line_starts`; on a sorted list its
result `hi + 1` is the number of recorded starts that are `≤ idx`. -/
def _index_to_line (idx : Nat) (line_starts : List Nat) : Nat :=
  line_starts.countP (fun s0 => s0 ≤ idx)

/-- Python `str.strip()`. -/
def pyStrip (s : String) : String :=
  String.mk ((s.data.dropWhile Char.isWhitespace).reverse.dropWhile Char.isWhitespace).reverse

/-- Python `str.lower()` (ASCII, which covers the mode strings used here). -/
def pyLower (s : String) : String := String.mk (s.data.map Char.toLower)

/-- Python `text.find(pattern, start)`, fuelled worker.  Returns the first
index `≥ start` at which `pattern` occurs (`start` itself for an empty
pattern), and `none` past the end of `text`. -/
def findFromAux (text pat : List Char) : Nat → Nat → Option Nat
  | _, 0 => none
  | start, fuel + 1 =>
      if text.length < start then none
      else if pat.isPrefixOf (text.drop start) then some start
      else findFromAux text pat (start + 1) fuel

/-- Python `text.find(pattern, start)` (with `none` for `-1`). -/
def findFrom (text pat : List Char) (start : Nat) : Option Nat :=
  findFromAux text pat start (text.length + 2 - start)

/-- Fuelled worker for the exact-anchor scan of `_find_matches`. -/
def exactSpansAux (text pat : List Char) : Nat → Nat → List (Nat × Nat)
  | _, 0 => []
  | start, fuel + 1 =>
      match findFrom text pat start with
      | none => []
      | some i => (i, i + pat.length) :: exactSpansAux text pat (i + max 1 pat.length) fuel

/-- The exact-anchor branch of `_find_matches`: all non-overlapping literal
occurrences, each next search restarting `max 1 |pattern|` past the last hit. -/
def exactSpans (text pat : List Char) : List (Nat × Nat) :=
  exactSpansAux text pat 0 (text.length + 1)

/-! ## PatchEngine: `_find_matches` / `edit_file` (tools.py lines 995-1258) -/

/-- The `anchor` dictionary of a patch hunk, with the source's `.get` defaults. -/
structure Anchor where
  type : Option String := none
  pattern : String := ""
  occurrence : Option String := none
  nth : Option Int := none
  dotall : Bool := false
  ignorecase : Bool := false
  range : Option (Int × Int) := none

/-- A patch hunk, with the source's `.get` defaults (`must_unique` defaults to
`False`). -/
structure Hunk where
  op : Option String := none
  anchor : Anchor := {}
  must_unique : Bool := false
  content : String := ""

/-- The optional `precondition` dictionary of `edit_file`. -/
structure Precond where
  file_sha256 : Option String := none

/-- The regex engine (`re.compile(...).finditer`), abstracted: pattern, DOTALL
flag, IGNORECASE flag, search text → spans, or the `Invalid regex` message. -/
abbrev RegexFn : Type :=
  String → Bool → Bool → List Char → Except String (List (Nat × Nat))

/-- The optional `[start_line, end_line]` window of `_find_matches`: returns
the base offset and the sub-text searched.  Invalid or out-of-range values fall
back to the whole text, as the source's guards and `except` do. -/
def rangeWindow (text : List Char) (range : Option (Int × Int)) : Nat × List Char :=
  match range with
  | none => (0, text)
  | some (s, e) =>
      if 1 ≤ s ∧ s ≤ e then
        let line_starts := _build_line_starts text
        let max_line := _index_to_line text.length line_starts
        let end_line := min e.toNat max_line
        if s.toNat - 1 < line_starts.length then
          let base_offset := line_starts.getD (s.toNat - 1) 0
          let end_offset0 :=
            if end_line - 1 < line_starts.length then line_starts.getD (end_line - 1) 0
            else text.length
          let end_offset :=
            if end_line - 1 < line_starts.length - 1 then line_starts.getD end_line 0
            else end_offset0
          (base_offset, (text.take end_offset).drop base_offset)
        else (0, text)
      else (0, text)

/-- `_find_matches` from tools.py: spans of the anchor in the text, offset by
the range window; `.error` carries the `ValueError` message the source raises. -/
def find_matches (rm : RegexFn) (text : List Char) (a : Anchor) :
    Except String (List (Nat × Nat)) :=
  let bw := rangeWindow text a.range
  match a.type with
  | some "regex" =>
      match rm a.pattern a.dotall a.ignorecase bw.2 with
      | .error e => .error e
      | .ok spans => .ok (spans.map (fun p => (bw.1 + p.1, bw.1 + p.2)))
  | some "exact" =>
      .ok ((exactSpans bw.2 a.pattern.data).map (fun p => (bw.1 + p.1, bw.1 + p.2)))
  | _ => .error "Unsupported anchor.type; use 'exact' or 'regex'"

/-- The occurrence-selection index of `edit_file`: `nth - 1` when `nth` is
given, else the last index for `occurrence=last`, else `0`. -/
def hunkIdx (a : Anchor) (nspans : Nat) : Int :=
  match a.nth with
  | some n => n - 1
  | none => if a.occurrence.getD "first" = "last" then (nspans : Int) - 1 else 0

/-- The span `edit_file` selects from a hunk's matches, `none` when the
requested occurrence is out of range. -/
def selectedSpan (a : Anchor) (spans : List (Nat × Nat)) : Option (Nat × Nat) :=
  let idx := hunkIdx a spans.length
  if idx < 0 ∨ (spans.length : Int) ≤ idx then none
  else spans[idx.toNat]?

/-- The ambiguous-anchor condition of `edit_file`. -/
def isAmbiguous (h : Hunk) (nspans : Nat) : Bool :=
  h.must_unique && h.anchor.nth == none &&
    (h.anchor.occurrence.getD "first") == "first" && nspans != 1

/-- Python rendering of the optional `op` value inside messages. -/
def opRepr (op : Option String) : String :=
  match op with
  | some s => s
  | none => "None"

/-- The ambiguous-anchor error message of `edit_file`. -/
def ambigMsg (n : Nat) : String :=
  "Anchor ambiguous: " ++ toString n ++
    " matches. Specify anchor.nth or anchor.occurrence, or set must_unique=false."

/-- The anchor-not-found error message of `edit_file`, with its hints. -/
def notFoundMsg (a : Anchor) (op : Option String) : String :=
  let hint1 :=
    if a.type == some "regex" && (findFrom a.pattern.data ['.', '*'] 0).isSome && !a.dotall
    then " Consider setting anchor.dotall=true or using [\\s\\S]*? for multi-line matches."
    else ""
  let hint := hint1 ++
    (if a.range.isSome then " Verify that anchor.range covers the intended lines." else "")
  "Anchor not found for op=" ++ opRepr op ++ "." ++ hint

/-- One entry of the `matches` list in `edit_file`'s result. -/
structure MatchMeta where
  op : String
  start_line : Nat
  end_line : Nat
  anchor_snippet : String
deriving DecidableEq

/-- One iteration of `edit_file`'s hunk loop: locate the anchor in the current
text, select a span, apply the op, and record the match metadata (whose snippet
is read from the original text, as in the source). -/
def applyHunk (rm : RegexFn) (original_text text : List Char) (h : Hunk) :
    Except String (List Char × MatchMeta) :=
  match find_matches rm text h.anchor with
  | .error e => .error ("Edit failed: " ++ e)
  | .ok spans =>
      if spans.isEmpty then .error (notFoundMsg h.anchor h.op)
      else if isAmbiguous h spans.length then .error (ambigMsg spans.length)
      else
        match selectedSpan h.anchor spans with
        | none => .error "Requested occurrence not found"
        | some se =>
            let s := se.1
            let e := se.2
            let line_starts := _build_line_starts text
            let start_line := _index_to_line s line_starts
            let end_line := _index_to_line (if s < e then e - 1 else s) line_starts
            let newText :=
              match h.op with
              | some "replace" => Except.ok (text.take s ++ h.content.data ++ text.drop e)
              | some "insert_before" => Except.ok (text.take s ++ h.content.data ++ text.drop s)
              | some "insert_after" => Except.ok (text.take e ++ h.content.data ++ text.drop e)
              | some "delete" => Except.ok (text.take s ++ text.drop e)
              | op0 => Except.error ("Unsupported op: " ++ opRepr op0)
            match newText with
            | .error m => .error m
            | .ok t2 =>
                let snippet :=
                  if s < original_text.length ∧ e ≤ original_text.length
                  then String.mk (((original_text.take e).drop s).take 120)
                  else ""
                .ok (t2, { op := opRepr h.op, start_line := start_line,
                           end_line := end_line, anchor_snippet := snippet })

/-- `edit_file`'s hunk loop: each hunk is applied to the running text, so later
hunks see earlier hunks' effects; any failure aborts the whole list. -/
def applyHunks (rm : RegexFn) (original_text : List Char) :
    List Hunk → List Char → List MatchMeta → Except String (List Char × List MatchMeta)
  | [], text, acc => .ok (text, acc)
  | h :: hs, text, acc =>
      match applyHunk rm original_text text h with
      | .error e => .error e
      | .ok tm => applyHunks rm original_text hs tm.1 (acc ++ [tm.2])

/-- The JSON result object of a successful `edit_file` call; keys absent in a
given branch of the source are `none`. -/
structure EditResult where
  success : Bool := true
  path : String
  applied : Bool
  mode : String
  hunks_applied : Option Nat := none
  match_list : Option (List MatchMeta) := none  -- the source's `matches` key
  sha256_before : Option String := none
  sha256_after : Option String := none
  bytes_written : Option Nat := none
  bytes_new : Option Nat := none
  diff : String := ""
  created : Option Bool := none
deriving DecidableEq

/-- The precondition test of `edit_file`: a check happens only when a
`file_sha256` value is present and truthy (non-empty), and fails when it
differs from the hash of the current content. -/
def preMismatch (hash : String → String) (original_text : String)
    (precondition : Option Precond) : Bool :=
  match precondition with
  | none => false
  | some p =>
      let given := p.file_sha256.getD ""
      given != "" && hash original_text != given

/-- `edit_file` from tools.py, after path resolution/validation: takes the
target file's current content (`none` when the file does not exist) and
returns the call's reply (`.error msg` for the source's `(False, msg)`) paired
with the file content after the call.  `hash` stands for `_compute_sha256` and
`udiff` for the unified-diff rendering. -/
def edit_file_core (rm : RegexFn) (hash : String → String)
    (udiff : String → String → String) (path : String) (file : Option String)
    (hunks : Option (List Hunk)) (precondition : Option Precond) (dry_run : Bool)
    (md : String) (content : Option String) : Except String EditResult × Option String :=
  if ¬ (md = "overwrite" ∨ md = "append" ∨ md = "prepend" ∨ md = "patch") then
    (.error ("Unsupported mode: " ++ md), file)
  else if file.isSome = false ∧ md ≠ "overwrite" ∧ dry_run = false then
    (.error ("File not found: " ++ path), file)
  else if preMismatch hash (file.getD "") precondition then
    (.error "Precondition failed: file sha256 mismatch", file)
  else if md = "overwrite" ∨ md = "append" ∨ md = "prepend" then
    match content with
    | none => (.error "Content required for simple modes", file)
    | some c =>
        let new_text :=
          if md = "overwrite" then c
          else if md = "append" then file.getD "" ++ c
          else c ++ file.getD ""
        if dry_run then
          (.ok { path := path, applied := false, mode := md,
                 bytes_new := some new_text.utf8ByteSize,
                 diff := udiff (file.getD "") new_text }, file)
        else
          (.ok { path := path, applied := true, mode := md,
                 sha256_before := some (hash (file.getD "")),
                 sha256_after := some (hash new_text),
                 bytes_written := some new_text.utf8ByteSize,
                 diff := udiff (file.getD "") new_text,
                 created := some (!file.isSome && md == "overwrite") }, some new_text)
  else
    match hunks with
    | none => (.error "Missing hunks for patch mode", file)
    | some [] => (.error "Missing hunks for patch mode", file)
    | some hs =>
        match applyHunks rm (file.getD "").data hs (file.getD "").data [] with
        | .error e => (.error e, file)
        | .ok tm =>
            let text := String.mk tm.1
            if dry_run then
              (.ok { path := path, applied := false, mode := "patch",
                     hunks_applied := some tm.2.length, match_list := some tm.2,
                     diff := udiff (file.getD "") text }, file)
            else
              (.ok { path := path, applied := true, mode := "patch",
                     hunks_applied := some tm.2.length, match_list := some tm.2,
                     sha256_before := some (hash (file.getD "")),
                     sha256_after := some (hash text),
                     diff := udiff (file.getD "") text }, some text)

/-- `edit_file` normalizes the mode string (`(mode or "patch").strip().lower()`)
and runs the body above. -/
def edit_file (rm : RegexFn) (hash : String → String) (udiff : String → String → String)
    (path : String) (file : Option String) (hunks : Option (List Hunk))
    (precondition : Option Precond) (dry_run : Bool) (mode : Option String)
    (content : Option String) : Except String EditResult × Option String :=
  edit_file_core rm hash udiff path file hunks precondition dry_run
    (pyLower (pyStrip (mode.getD "patch"))) content

/-! ## `read_file` (tools.py lines 840-885) -/

/-- The metadata object returned by `read_file(with_metadata=True)`. -/
structure ReadMeta where
  path : String
  total_lines : Nat
  mtime : String
  sha256 : String
  content : String
deriving DecidableEq

/-- A successful `read_file` reply: plain rendered text, or the metadata JSON. -/
inductive ReadOut
  | plain (text : String)
  | meta (m : ReadMeta)
deriving DecidableEq

/-- `read_file` from tools.py, after path resolution/validation: takes the
file's content (`none` when missing), its mtime rendering, and the call's
window arguments.  `hash` stands for `_compute_sha256`; `trunc` for the
UTF-8 byte truncation `b[:max_bytes].decode('utf-8', errors='ignore')`. -/
def read_file (hash : String → String) (trunc : String → Nat → String)
    (path : String) (file : Option String) (mtime : String)
    (start_line end_line : Option Int) (max_bytes : Option Int)
    (with_metadata : Bool) : Except String ReadOut :=
  match file with
  | none => .error ("File not found: " ++ path)
  | some raw =>
      let sl :=
        match start_line with
        | some s =>
            let lines := splitKeepEnds raw
            let total := lines.length
            let s1 : Int := max 1 s
            let e0 : Int := match end_line with | some e => e | none => (total : Int)
            let e1 : Int := max s1 (min e0 (total : Int))
            (joinAll ((lines.take e1.toNat).drop (s1.toNat - 1)), s1.toNat)
        | none => (raw, 1)
      let content1 :=
        match max_bytes with
        | some m =>
            if 0 ≤ m ∧ m.toNat < sl.1.utf8ByteSize then trunc sl.1 m.toNat else sl.1
        | none => sl.1
      let content2 := _with_line_numbers content1 sl.2
      if with_metadata = false then .ok (.plain content2)
      else
        let m : ReadMeta :=
          { path := path,
            total_lines := countChar content2 '\n' +
              (if strEnds content2 "\n" then 0 else if content2 ≠ "" then 1 else 0),
            mtime := mtime, sha256 := hash content2, content := content2 }
        .ok (.meta m)

/-! ## SessionManager (tools.py lines 249-254, 1486-1533, 1554-1614) -/

def MAX_SESSIONS : Nat := 3

def OUTPUT_BUFFER_SIZE : Nat := 4096

/-- One entry of `ACTIVE_SESSIONS` (the process handle and output queue are
managed outside the table model). -/
structure SessionEntry where
  created_at : Nat
  last_accessed : Nat
  command : String
deriving DecidableEq

/-- The `ACTIVE_SESSIONS` dict: an association list with unique keys. -/
abbrev SessionTable : Type := List (String × SessionEntry)

/-- Python dict assignment `d[k] = v`: replace an existing binding, else add. -/
def tableInsert (t : SessionTable) (sid : String) (e : SessionEntry) : SessionTable :=
  if t.any (fun p => p.1 == sid) then t.map (fun p => if p.1 == sid then (sid, e) else p)
  else t ++ [(sid, e)]

/-- Python `del d[k]`. -/
def tableDelete (t : SessionTable) (sid : String) : SessionTable :=
  t.filter (fun p => p.1 != sid)

/-- Python `d.get(k)`. -/
def tableGet (t : SessionTable) (sid : String) : Option SessionEntry :=
  (t.find? (fun p => p.1 == sid)).map (fun p => p.2)

/-- Number of live entries, `len(ACTIVE_SESSIONS)`. -/
def tableLen (t : SessionTable) : Nat := t.length

/-- `start_session` from tools.py: refuse at the session bound, else (when the
subprocess spawn succeeds, abstracted as `spawnOk`) register a fresh session
under `newId` (the `uuid4` prefix) at time `now`. -/
def start_session (t : SessionTable) (spawnOk : Bool) (newId : String) (now : Nat)
    (command : String) : SessionTable × Bool × String :=
  if MAX_SESSIONS ≤ tableLen t then
    (t, false, "Maximum 3 sessions reached. Close existing sessions first.")
  else if spawnOk = false then
    (t, false, "Failed to start session")
  else
    (tableInsert t newId { created_at := now, last_accessed := now, command := command },
     true, "Session " ++ newId ++ " started")

/-- `close_session` from tools.py: unknown id fails; otherwise terminate the
process (success abstracted as `termOk`; an exception leaves the entry in
place) and remove the table entry. -/
def close_session (t : SessionTable) (termOk : Bool) (sid : String) :
    SessionTable × Bool × String :=
  match tableGet t sid with
  | none => (t, false, "Session " ++ sid ++ " not found")
  | some _ =>
      if termOk then (tableDelete t sid, true, "Session " ++ sid ++ " closed")
      else (t, false, "Failed to close session")

/-- The truncation marker of `read_output`. -/
def truncationMarker : String := "[output truncated at 4096 bytes]"

/-- The polling loop of `read_output` over a schedule of queue events: `some
line` is a `get` that returned a line, `none` a `queue.Empty` poll; the list
ending is the deadline.  Returns the collected lines (rstripped, with the
truncation marker appended when the raw total passed the buffer size), the raw
total, and whether truncation fired. -/
def readLoop : List (Option String) → List String → Nat → List String × Nat × Bool
  | [], acc, total => (acc, total, false)
  | some line :: rest, acc, total =>
      let acc2 := acc ++ [pyRstrip line]
      let total2 := total + line.length
      if OUTPUT_BUFFER_SIZE < total2 then (acc2 ++ [truncationMarker], total2, true)
      else readLoop rest acc2 total2
  | none :: rest, acc, total =>
      if acc.isEmpty then readLoop rest acc total else (acc, total, false)

/-- `read_output` from tools.py on a live session: the text assembled from the
polling loop, or the no-output sentinel. -/
def read_output (sched : List (Option String)) : String :=
  let r := readLoop sched [] 0
  if r.1.isEmpty then "[no output within timeout]" else joinWith "\n" r.1

/-! ## PlanTracker and Dispatcher (tools.py lines 27-47, 1354-1420, 1937-1963) -/

/-- One task of `CURRENT_PLAN`. -/
structure PlanTask where
  id : Nat
  desc : String
  status : String
deriving DecidableEq

/-- The `CURRENT_PLAN` dict. -/
structure PlanData where
  tasks : List PlanTask
  created_at : String
deriving DecidableEq

/-- The module globals of tools.py that the dispatcher and plan tool read and
write. -/
structure ExecState where
  planDecisionMade : Bool
  bypassPlanCheck : Bool
  bypassPermission : Bool
  exitOnTerminate : Bool
  sessionApproved : List String
  currentPlan : Option PlanData
  significantActions : Nat
  lastPlanUpdateAt : Nat
deriving DecidableEq

/-- `format_task` from tools.py: the colored listing line for one task. -/
def format_task (t : PlanTask) (isFirst : Bool) : String :=
  let color :=
    if t.status = "pending" then "\x1b[31m"
    else if t.status = "in_progress" then "\x1b[33m"
    else if t.status = "completed" then "\x1b[32m"
    else ""
  let reset := if color = "" then "" else "\x1b[0m"
  (if isFirst then "↳ " else "  ") ++ "- " ++ color ++ t.desc ++ reset

/-- Worker for the task listing: first line gets the arrow marker. -/
def formatTasksAux : List PlanTask → Bool → List String
  | [], _ => []
  | t :: ts, first => format_task t first :: formatTasksAux ts false

/-- The task listing the plan tool returns. -/
def formatTasks (ts : List PlanTask) : String := joinWith "\n" (formatTasksAux ts true)

/-- The task list built by `plan(create)`: sequential 1-based ids, all
`pending`. -/
def mkTasks : List String → Nat → List PlanTask
  | [], _ => []
  | d :: ds, i => { id := i + 1, desc := d, status := "pending" } :: mkTasks ds (i + 1)

/-- The `plan(skip)` message (an empty reason string is falsy in the source). -/
def skipMsgOf (reason : Option String) : String :=
  if reason.getD "" ≠ "" then "Plan skipped: " ++ reason.getD ""
  else "Plan skipped (simple task)"

/-- Set the status of the first task with the given id (the source mutates the
object found by `next(...)`). -/
def setTaskStatus : List PlanTask → Int → String → List PlanTask
  | [], _, _ => []
  | t :: ts, tid, st =>
      if (t.id : Int) = tid then { t with status := st } :: ts
      else t :: setTaskStatus ts tid st

/-- `plan` from tools.py as a transformer of the module globals; returns the
new state and the `(ok, message)` pair.  Persistence (`save_plan_state`) is an
external effect outside this model. -/
def planFn (st : ExecState) (now : String) (action : Option String)
    (tasks : Option (List String)) (task_id : Option Int) (status : Option String)
    (reason : Option String) : ExecState × Bool × String :=
  match action with
  | some "create" =>
      match tasks with
      | none => (st, false, "Create action requires 'tasks' parameter as a list")
      | some [] => (st, false, "Create action requires 'tasks' parameter as a list")
      | some ts =>
          let p : PlanData := { tasks := mkTasks ts 0, created_at := now }
          ({ st with currentPlan := some p, planDecisionMade := true,
                     significantActions := 0, lastPlanUpdateAt := 0 },
           true, formatTasks p.tasks)
  | some "skip" => ({ st with planDecisionMade := true }, true, skipMsgOf reason)
  | some "update" =>
      match st.currentPlan with
      | none => (st, false, "No plan exists. Create a plan first.")
      | some p =>
          match task_id, status with
          | some tid, some stat =>
              if p.tasks.any (fun t => (t.id : Int) == tid) then
                let p2 : PlanData := { p with tasks := setTaskStatus p.tasks tid stat }
                ({ st with currentPlan := some p2, significantActions := 0,
                           lastPlanUpdateAt := 0 },
                 true, formatTasks p2.tasks)
              else (st, false, "Task ID " ++ toString tid ++ " not found")
          | _, _ => (st, false, "Update action requires 'task_id' and 'status' parameters")
  | some "check" =>
      match st.currentPlan with
      | none => (st, false, "No plan exists. Create a plan first.")
      | some p => (st, true, formatTasks p.tasks)
  | a => (st, false, "Unknown action: " ++ opRepr a)

/-- The tool-call argument dictionary, restricted to the keys the dispatcher
itself interprets (the `plan` arguments); the remaining per-tool arguments are
opaque to the dispatch contract and flow to the abstract runner unchanged. -/
structure ToolArgs where
  action : Option String := none
  tasks : Option (List String) := none
  task_id : Option Int := none
  status : Option String := none
  reason : Option String := none
deriving DecidableEq

/-- The four outcomes a confirmation strategy (terminal prompt choice 1-4, or
the permission callback) can produce. -/
inductive PermReply
  | allowOnce
  | allowSession
  | denyContinue (msg : String)
  | denyTerminate (msg : String)
deriving DecidableEq

/-- What a dispatched call came to: blocked by the plan gate, denied by the
permission gate, terminated on denial, or actually run with a `(ok, result)`. -/
inductive ExecOutcome
  | planBlocked (msg : String)
  | denied (msg : String)
  | terminated (exitsProcess : Bool) (msg : String)
  | ran (ok : Bool) (result : String)
deriving DecidableEq

/-- `DESTRUCTIVE_TOOLS` from tools.py. -/
def DESTRUCTIVE_TOOLS : List String :=
  ["create_file", "edit_file", "run_command", "start_session", "send_input",
   "close_session", "delete_file", "delete_path", "mkdir"]

/-- The `significant_action_tools` list of `execute_tool`. -/
def significant_action_tools : List String :=
  ["read_file", "edit_file", "create_file", "delete_file", "delete_path",
   "mkdir", "run_command"]

/-- The plan-gate blocking message of `execute_tool`. -/
def planBlockMsg : String :=
  "⚠️ BLOCKED: You must make a plan decision first.\nCall plan(action='create', tasks=[...]) for multi-step tasks, or plan(action='skip', reason='...') for simple tasks."

/-- `ask_user_permission` from tools.py: bypass, then the session approval set,
then the pluggable confirmation strategy; `allowSession` records the tool for
the rest of the session.  Returns state, allowed, should-terminate, message. -/
def ask_user_permission (st : ExecState) (strategy : String → ToolArgs → PermReply)
    (name : String) (args : ToolArgs) : ExecState × Bool × Bool × String :=
  if st.bypassPermission then (st, true, false, "")
  else if st.sessionApproved.contains name then (st, true, false, "")
  else
    match strategy name args with
    | .allowOnce => (st, true, false, "")
    | .allowSession =>
        ({ st with sessionApproved := name :: st.sessionApproved }, true, false, "")
    | .denyContinue m => (st, false, false, m)
    | .denyTerminate m => (st, false, true, m)

/-- `execute_tool` from tools.py: the plan gate, then the permission gate for
destructive tools, then the significant-action bookkeeping, then dispatch
(`plan` is interpreted here; every other tool body is the abstract `runner`). -/
def execute_tool (st : ExecState) (name : String) (args : ToolArgs) (now : String)
    (strategy : String → ToolArgs → PermReply)
    (runner : String → ToolArgs → Bool × String) : ExecState × ExecOutcome :=
  if name ≠ "plan" ∧ st.planDecisionMade = false ∧ st.bypassPlanCheck = false then
    (st, .planBlocked planBlockMsg)
  else
    match (if DESTRUCTIVE_TOOLS.contains name
           then ask_user_permission st strategy name args
           else (st, true, false, "")) with
    | (st1, allowed, shouldTerm, emsg) =>
        if allowed = false then
          if shouldTerm = true then
            (st1, .terminated st1.exitOnTerminate
              (if st1.exitOnTerminate then emsg
               else if emsg = "" then "User denied " ++ name ++ " operation" else emsg))
          else
            (st1, .denied ("Denied: " ++
              (if emsg = "" then "User denied " ++ name ++ " operation" else emsg)))
        else
          let st2 :=
            if significant_action_tools.contains name = true ∧ st1.currentPlan ≠ none
            then { st1 with significantActions := st1.significantActions + 1 }
            else st1
          if name = "plan" then
            let r := planFn st2 now args.action args.tasks args.task_id args.status args.reason
            (r.1, .ran r.2.1 r.2.2)
          else
            let r := runner name args
            (st2, .ran r.1 r.2)


/-! ## Concrete fixtures for witnesses and counterexamples -/

/-- A regex engine instance that finds nothing (claims below only exercise
exact anchors). -/
def rmW : RegexFn := fun _ _ _ _ => .ok []

/-- A concrete stand-in for `_compute_sha256`: injective and never empty. -/
def hashW : String → String := fun s => String.mk ('#' :: s.data)

/-- A concrete stand-in for the unified-diff rendering. -/
def udiffW : String → String → String := fun _ _ => ""

/-- A concrete stand-in for the UTF-8 byte truncation of `read_file`. -/
def truncW : String → Nat → String := fun s _ => s

/-- Concrete sandbox with identity canonicalization. -/
def sandboxEnvW : SandboxEnv :=
  { workRoot := "/w", bypass := false
    realpath := fun s => s, expanduser := fun s => s }

/-- A unique replace hunk anchored at the literal `foo`. -/
def hkFoo : Hunk :=
  { op := some "replace", anchor := { type := some "exact", pattern := "foo" },
    must_unique := true, content := "bar" }

/-- An insert hunk anchored at the empty literal (matches at offset 0). -/
def hkIns : Hunk :=
  { op := some "insert_before", anchor := { type := some "exact", pattern := "" },
    content := "x" }

/-- A 5000-character line, longer than `OUTPUT_BUFFER_SIZE`. -/
def bigLine : String := String.mk (List.replicate 5000 'a')

/-- A session entry fixture. -/
def sessEntryW : SessionEntry := { created_at := 0, last_accessed := 0, command := "c" }

/-- A full session table (3 live sessions). -/
def tableW : SessionTable := [("a", sessEntryW), ("b", sessEntryW), ("c", sessEntryW)]

/-- Dispatcher state before any plan decision. -/
def stNoPlanW : ExecState :=
  { planDecisionMade := false, bypassPlanCheck := false, bypassPermission := false,
    exitOnTerminate := true, sessionApproved := [], currentPlan := none,
    significantActions := 0, lastPlanUpdateAt := 0 }

/-- Dispatcher state with a decision made and a one-task plan in place. -/
def stPlanW : ExecState :=
  { planDecisionMade := true, bypassPlanCheck := false, bypassPermission := false,
    exitOnTerminate := true, sessionApproved := [], significantActions := 0,
    lastPlanUpdateAt := 0,
    currentPlan := some { tasks := [{ id := 1, desc := "T", status := "pending" }],
                          created_at := "c" } }

/-- A confirmation strategy that always allows once. -/
def stratAllowW : String → ToolArgs → PermReply := fun _ _ => .allowOnce

/-- A runner that reports success for every tool. -/
def runnerW : String → ToolArgs → Bool × String := fun _ _ => (true, "ok")

/-! ## Theorems -/

/-- C1: provided `realpath` is idempotent (canonicalizing a canonical path is a
no-op), `validate_path (resolve_path p)` succeeds exactly when bypass is set or
the canonical form of `p` (its resolved, symlink-followed absolute form) equals
the work root or lies strictly inside it. -/
theorem claim_C1_sandbox (env : SandboxEnv) (p : String)
    (hidem : ∀ s, env.realpath (env.realpath s) = env.realpath s) :
    (validate_path env (resolve_path env p)).1 = true ↔
      (env.bypass = true ∨ insideWorkRoot env.workRoot (resolve_path env p) = true) := by
  unfold validate_path
  by_cases hb : env.bypass
  · simp [hb]
  · have hfix : env.realpath (resolve_path env p) = resolve_path env p := by
      unfold resolve_path
      by_cases habs : isAbsPath (env.expanduser p)
      · simp [habs, hidem]
      · simp [habs, hidem]
    simp only [hb, if_false, hfix]
    by_cases hin : insideWorkRoot env.workRoot (resolve_path env p)
    · simp [hin]
    · simp [hin, hb]

/-- Witness for C1 at a concrete inside path. -/
theorem claim_C1_sandbox_witness :
    (validate_path sandboxEnvW (resolve_path sandboxEnvW "/w/x")).1 = true :=
  (claim_C1_sandbox sandboxEnvW "/w/x" (fun _ => rfl)).mpr (Or.inr (by decide))

/-- C2: while no plan decision has been made and the global bypass is unset,
`execute_tool` returns the blocking message for every non-`plan` tool without
reaching the permission gate or the tool body, leaving the state untouched; a
`plan(action=skip)` call succeeds, records the decision, and afterwards the
same tool call is no longer blocked by the plan gate. -/
theorem claim_C2_plan_gate (st : ExecState) (name : String) (args skipArgs : ToolArgs)
    (now : String) (strategy : String → ToolArgs → PermReply)
    (runner : String → ToolArgs → Bool × String)
    (hname : name ≠ "plan") (hdec : st.planDecisionMade = false)
    (hbyp : st.bypassPlanCheck = false) (hact : skipArgs.action = some "skip") :
    execute_tool st name args now strategy runner = (st, .planBlocked planBlockMsg) ∧
    (execute_tool st "plan" skipArgs now strategy runner).2 =
      .ran true (skipMsgOf skipArgs.reason) ∧
    (execute_tool st "plan" skipArgs now strategy runner).1.planDecisionMade = true ∧
    ∀ m, (execute_tool (execute_tool st "plan" skipArgs now strategy runner).1
            name args now strategy runner).2 ≠ .planBlocked m := by
  have hplan : execute_tool st "plan" skipArgs now strategy runner =
      ({ st with planDecisionMade := true }, .ran true (skipMsgOf skipArgs.reason)) := by
    simp [execute_tool, DESTRUCTIVE_TOOLS, significant_action_tools, planFn, hact]
  refine ⟨?_, ?_, ?_, ?_⟩
  · simp [execute_tool, hname, hdec, hbyp]
  · rw [hplan]
  · rw [hplan]
  · intro m
    rw [hplan]
    simp only [execute_tool]
    rw [if_neg (by simp)]
    rcases hperm : (if DESTRUCTIVE_TOOLS.contains name
        then ask_user_permission { st with planDecisionMade := true } strategy name args
        else ({ st with planDecisionMade := true }, true, false, "")) with ⟨st1, allowed, shouldTerm, emsg⟩
    simp only
    split <;> simp_all <;> split <;> simp_all

/-- Witness for C2: a concrete `read_file` call before any plan decision is
blocked. -/
theorem claim_C2_plan_gate_witness :
    execute_tool stNoPlanW "read_file" {} "t" stratAllowW runnerW =
      (stNoPlanW, ExecOutcome.planBlocked planBlockMsg) :=
  (claim_C2_plan_gate stNoPlanW "read_file" {} { action := some "skip" } "t"
    stratAllowW runnerW (by decide) rfl rfl rfl).1

/-- Helper: deleting a present key shrinks the table. -/
theorem tableDelete_lt_of_mem (t : SessionTable) (sid : String)
    (h : (tableGet t sid).isSome = true) :
    tableLen (tableDelete t sid) < tableLen t := by
  unfold tableGet at h
  unfold tableDelete tableLen
  rcases hf : t.find? (fun p => p.1 == sid) with _ | x
  · rw [hf] at h; simp at h
  · have hmem := List.mem_of_find?_eq_some hf
    have hx := List.find?_some hf
    rw [List.length_filter_lt_length_iff_exists]
    exact ⟨x, hmem, by simp_all⟩

/-- Helper: insertion grows the table by at most one entry. -/
theorem tableInsert_le (t : SessionTable) (sid : String) (e : SessionEntry) :
    tableLen (tableInsert t sid e) ≤ tableLen t + 1 := by
  unfold tableInsert tableLen
  split
  · simp
  · simp

/-- C6: the session table is bounded by `MAX_SESSIONS` (= 3): `start_session`
refuses whenever the table already holds 3 entries and leaves it unchanged;
both operations preserve the bound; and after a successful `close_session`
removes one of 3 live entries, a subsequent `start_session` succeeds whenever
the subprocess spawns. -/
theorem claim_C6_session_bound (t : SessionTable) (spawnOk termOk : Bool)
    (newId sid : String) (now : Nat) (cmd : String) :
    (MAX_SESSIONS ≤ tableLen t →
      start_session t spawnOk newId now cmd =
        (t, false, "Maximum 3 sessions reached. Close existing sessions first.")) ∧
    (tableLen t ≤ MAX_SESSIONS →
      tableLen (start_session t spawnOk newId now cmd).1 ≤ MAX_SESSIONS) ∧
    (tableLen (close_session t termOk sid).1 ≤ tableLen t) ∧
    (tableLen t = MAX_SESSIONS → (tableGet t sid).isSome = true → termOk = true →
      spawnOk = true →
      (start_session (close_session t termOk sid).1 spawnOk newId now cmd).2.1 = true) := by
  refine ⟨?_, ?_, ?_, ?_⟩
  · intro h
    unfold start_session
    rw [if_pos h]
  · intro h
    unfold start_session
    by_cases hfull : MAX_SESSIONS ≤ tableLen t
    · rw [if_pos hfull]; exact h
    · rw [if_neg hfull]
      by_cases hsp : spawnOk = false
      · rw [if_pos hsp]; exact h
      · rw [if_neg hsp]
        have h1 : tableLen t + 1 ≤ MAX_SESSIONS := Nat.lt_iff_add_one_le.mp (Nat.lt_of_not_le hfull)
        exact le_trans (tableInsert_le t newId _) h1
  · unfold close_session
    rcases hg : tableGet t sid with _ | x
    · simp
    · by_cases ht : termOk
      · rw [if_pos ht]
        exact le_of_lt (tableDelete_lt_of_mem t sid (by rw [hg]; rfl))
      · rw [if_neg ht]
  · intro hlen hmem hterm hsp
    unfold close_session
    rcases hg : tableGet t sid with _ | x
    · rw [hg] at hmem; simp at hmem
    · rw [if_pos hterm]
      have hlt : tableLen (tableDelete t sid) < MAX_SESSIONS := by
        rw [← hlen]; exact tableDelete_lt_of_mem t sid hmem
      unfold start_session
      rw [if_neg (Nat.not_le.mpr hlt), if_neg (by simp [hsp])]

/-- Witness for C6: with 3 live sessions, closing one then starting a new one
succeeds. -/
theorem claim_C6_session_bound_witness :
    (start_session (close_session tableW true "b").1 true "d" 5 "x").2.1 = true :=
  (claim_C6_session_bound tableW true true "d" "b" 5 "x").2.2.2 (by decide) (by decide) rfl rfl

/-- Helper: a supplied, non-empty, mismatching precondition hash makes
`edit_file` return an error with the file unchanged, whatever the other
arguments are. -/
theorem edit_file_precondition_aborts (rm : RegexFn) (hash : String → String)
    (udiff : String → String → String) (path : String) (file : Option String)
    (hunks : Option (List Hunk)) (p : Precond) (dry : Bool) (mode content : Option String)
    (hs : p.file_sha256.getD "" ≠ "") (hmm : hash (file.getD "") ≠ p.file_sha256.getD "") :
    (∃ msg, (edit_file rm hash udiff path file hunks (some p) dry mode content).1
        = .error msg) ∧
    (edit_file rm hash udiff path file hunks (some p) dry mode content).2 = file := by
  have hpre : preMismatch hash (file.getD "") (some p) = true := by
    unfold preMismatch
    simp only [Bool.and_eq_true, bne_iff_ne]
    exact ⟨hs, hmm⟩
  unfold edit_file edit_file_core
  rw [if_pos hpre]
  split
  · exact ⟨⟨_, rfl⟩, rfl⟩
  · split
    · exact ⟨⟨_, rfl⟩, rfl⟩
    · exact ⟨⟨_, rfl⟩, rfl⟩

/-- C3 (amended): an `edit_file` call supplying a non-empty precondition
`file_sha256` that differs from the hash of the file's current content fails
and leaves the file's content unchanged (an empty supplied hash is falsy in
the source and skips the check, see the counterexample). -/
theorem claim_C3_amended_precondition (rm : RegexFn) (hash : String → String)
    (udiff : String → String → String) (path : String) (file : Option String)
    (hunks : Option (List Hunk)) (p : Precond) (dry : Bool)
    (mode content : Option String) (s : String)
    (hfs : p.file_sha256 = some s) (hne : s ≠ "")
    (hdiff : s ≠ hash (file.getD "")) :
    (∃ msg, (edit_file rm hash udiff path file hunks (some p) dry mode content).1
        = .error msg) ∧
    (edit_file rm hash udiff path file hunks (some p) dry mode content).2 = file :=
  edit_file_precondition_aborts rm hash udiff path file hunks p dry mode content
    (by rw [hfs]; exact hne) (by rw [hfs]; exact Ne.symm hdiff)

/-- Witness for C3 (amended): a concrete mismatching hash aborts an overwrite. -/
theorem claim_C3_amended_precondition_witness :
    (∃ msg, (edit_file rmW hashW udiffW "a.txt" (some "y") none
        (some { file_sha256 := some "zz" }) false (some "overwrite") (some "x")).1
          = .error msg) ∧
    (edit_file rmW hashW udiffW "a.txt" (some "y") none
        (some { file_sha256 := some "zz" }) false (some "overwrite") (some "x")).2
      = some "y" :=
  claim_C3_amended_precondition rmW hashW udiffW "a.txt" (some "y") none
    { file_sha256 := some "zz" } false (some "overwrite") (some "x") "zz"
    rfl (by decide) (by decide)

/-- Counterexample to C3 as stated: supplying `file_sha256 = ""` — which does
differ from the sha256 of the current content `"y"` — does not abort, because
an empty string is falsy in the source's `precondition.get("file_sha256")`
test; the overwrite proceeds and the file's content changes. -/
theorem claim_C3_counterexample :
    ("" : String) ≠ hashW "y" ∧
    (edit_file rmW hashW udiffW "a.txt" (some "y") none
        (some { file_sha256 := some "" }) false (some "overwrite") (some "x")).2
      = some "x" ∧
    ∃ r, (edit_file rmW hashW udiffW "a.txt" (some "y") none
        (some { file_sha256 := some "" }) false (some "overwrite") (some "x")).1
      = Except.ok r :=
  ⟨by decide, rfl, ⟨_, rfl⟩⟩

/-- Helper: the hunk loop distributes over list append. -/
theorem applyHunks_append (rm : RegexFn) (orig : List Char) (xs ys : List Hunk)
    (t : List Char) (acc : List MatchMeta) :
    applyHunks rm orig (xs ++ ys) t acc =
      match applyHunks rm orig xs t acc with
      | .error e => .error e
      | .ok tm => applyHunks rm orig ys tm.1 tm.2 := by
  induction xs generalizing t acc with
  | nil => simp [applyHunks]
  | cons h hs ih =>
      simp only [List.cons_append, applyHunks]
      rcases applyHunk rm orig t h with e | tm
      · rfl
      · exact ih tm.1 (acc ++ [tm.2])

/-- C4: a patch-mode `edit_file` call that reaches a hunk with
`must_unique = true` whose anchor matches more than one span of the running
text, the selection being left at the default first occurrence (``nth`` absent
and ``occurrence`` absent or ``first``), fails with the ambiguous-anchor error
and leaves the file unchanged.  The precondition hypothesis records that the
call is not already rejected by a mismatching hash. -/
theorem claim_C4_ambiguous_anchor (rm : RegexFn) (hash : String → String)
    (udiff : String → String → String) (path : String) (file : String)
    (pre : Option Precond) (dry : Bool) (content : Option String)
    (hs1 hs2 : List Hunk) (h : Hunk) (t : List Char) (metas : List MatchMeta)
    (spans : List (Nat × Nat))
    (hpre : preMismatch hash file pre = false)
    (hrun : applyHunks rm file.data hs1 file.data [] = .ok (t, metas))
    (hfind : find_matches rm t h.anchor = .ok spans)
    (hlen : 1 < spans.length)
    (hmu : h.must_unique = true)
    (hnth : h.anchor.nth = none)
    (hocc : h.anchor.occurrence = none ∨ h.anchor.occurrence = some "first") :
    edit_file rm hash udiff path (some file) (some (hs1 ++ h :: hs2)) pre dry
        (some "patch") content = (.error (ambigMsg spans.length), some file) := by
  have hamb : isAmbiguous h spans.length = true := by
    unfold isAmbiguous
    rcases hocc with h1 | h1 <;>
      simp [hmu, hnth, h1, Nat.ne_of_gt hlen]
  have hne : spans.isEmpty = false := by
    cases spans
    · simp at hlen
    · rfl
  have happ : applyHunks rm file.data (hs1 ++ h :: hs2) file.data [] =
      .error (ambigMsg spans.length) := by
    rw [applyHunks_append, hrun]
    simp only [applyHunks, applyHunk, hfind, hne, hamb]
    rfl
  obtain ⟨a, as, hcons⟩ : ∃ a as, hs1 ++ h :: hs2 = a :: as := by
    cases hs1 <;> exact ⟨_, _, rfl⟩
  unfold edit_file edit_file_core
  rw [if_neg (by decide), if_neg (by simp), if_neg (by simp [hpre]), if_neg (by decide), hcons]
  have happ2 : applyHunks rm ((some file).getD "").data (a :: as)
      ((some file).getD "").data [] = Except.error (ambigMsg spans.length) := by
    simp only [Option.getD]
    rw [← hcons]
    exact happ
  simp only [happ2]

/-- Witness for C4: the spec's own scenario — a unique replace of `foo` on a
file containing `foo` twice fails with the ambiguous-anchor error and leaves
the file unchanged. -/
theorem claim_C4_ambiguous_anchor_witness :
    edit_file rmW hashW udiffW "a.txt" (some "foofoo") (some [hkFoo]) none false
        (some "patch") none = (.error (ambigMsg 2), some "foofoo") :=
  claim_C4_ambiguous_anchor rmW hashW udiffW "a.txt" "foofoo" none false none
    [] [] hkFoo "foofoo".data [] [(0, 3), (3, 6)]
    rfl rfl rfl (by decide) rfl rfl (Or.inl rfl)

/-- C5: whenever a hunk's anchor matched a non-empty span list, the span
`edit_file` selects is the `nth` one (1-based) when `nth` is supplied, else the
final one when `occurrence = "last"`, else the first. -/
theorem claim_C5_occurrence_selection (a : Anchor) (spans : List (Nat × Nat))
    (hne : spans ≠ []) :
    (∀ n : Int, a.nth = some n → 1 ≤ n → n ≤ (spans.length : Int) →
        selectedSpan a spans = spans[n.toNat - 1]?) ∧
    (a.nth = none → a.occurrence.getD "first" = "last" →
        selectedSpan a spans = spans.getLast?) ∧
    (a.nth = none → a.occurrence.getD "first" ≠ "last" →
        selectedSpan a spans = spans[0]?) := by
  have hpos : 0 < spans.length := List.length_pos.mpr hne
  refine ⟨?_, ?_, ?_⟩
  · intro n hn h1 h2
    have hidx : hunkIdx a spans.length = n - 1 := by
      unfold hunkIdx
      rw [hn]
    unfold selectedSpan
    rw [hidx, if_neg (by omega)]
    congr 1
    omega
  · intro hn hocc
    have hidx : hunkIdx a spans.length = (spans.length : Int) - 1 := by
      unfold hunkIdx
      rw [hn, if_pos hocc]
    unfold selectedSpan
    rw [hidx, if_neg (by omega), List.getLast?_eq_getElem?]
    congr 1
    omega
  · intro hn hocc
    have hidx : hunkIdx a spans.length = 0 := by
      unfold hunkIdx
      rw [hn, if_neg hocc]
    unfold selectedSpan
    rw [hidx, if_neg (by omega)]
    rfl

/-- Witness for C5: with two spans and `occurrence = last`, the final span is
selected. -/
theorem claim_C5_occurrence_selection_witness :
    selectedSpan { occurrence := some "last" } [(0, 1), (2, 3)] = some (2, 3) :=
  ((claim_C5_occurrence_selection { occurrence := some "last" } [(0, 1), (2, 3)]
      (by decide)).2.1 rfl rfl).trans (by decide)

/-- C8 (amended): a patch-mode `edit_file` call on a missing file with
`dry_run = false` fails with the file-not-found error (returned, not raised)
and creates nothing, for every combination of the remaining arguments; with
`dry_run = true` the source skips this check and treats the missing file as
empty text (see the counterexample). -/
theorem claim_C8_amended_missing_file (rm : RegexFn) (hash : String → String)
    (udiff : String → String → String) (path : String) (hunks : Option (List Hunk))
    (pre : Option Precond) (content : Option String) :
    edit_file rm hash udiff path none hunks pre false (some "patch") content =
      (.error ("File not found: " ++ path), none) := by
  unfold edit_file edit_file_core
  rw [if_neg (by decide), if_pos (by decide)]

/-- Counterexample to C8 as stated: the same patch-mode call on a missing file
with `dry_run = true` does not produce the file-not-found error — it succeeds
(the missing file is treated as empty text and the empty-anchor hunk applies). -/
theorem claim_C8_counterexample :
    ∃ r, (edit_file rmW hashW udiffW "a.txt" none (some [hkIns]) none true
        (some "patch") none).1 = Except.ok r ∧ r.applied = false :=
  ⟨_, rfl, rfl⟩

/-- Helper: a schedule with no arriving line leaves the loop empty-handed. -/
theorem readLoop_all_none (sched : List (Option String)) (h : ∀ e ∈ sched, e = none)
    (t : Nat) : readLoop sched [] t = ([], t, false) := by
  induction sched generalizing t with
  | nil => rfl
  | cons e rest ih =>
      have he : e = none := h e (by simp)
      subst he
      simp only [readLoop, List.isEmpty_nil, if_pos]
      exact ih (fun x hx => h x (by simp [hx])) t

/-- Helper: while no truncation fired, the raw total stays within the buffer
size (given it started within it). -/
theorem readLoop_no_marker_le (sched : List (Option String)) (acc : List String)
    (total : Nat) (h : total ≤ OUTPUT_BUFFER_SIZE)
    (hm : (readLoop sched acc total).2.2 = false) :
    (readLoop sched acc total).2.1 ≤ OUTPUT_BUFFER_SIZE := by
  induction sched generalizing acc total with
  | nil => simpa using h
  | cons e rest ih =>
      cases e with
      | none =>
          simp only [readLoop] at hm ⊢
          by_cases hacc : acc.isEmpty
          · rw [if_pos hacc] at hm ⊢
            exact ih _ _ h hm
          · rw [if_neg hacc] at hm ⊢
            simpa using h
      | some line =>
          simp only [readLoop] at hm ⊢
          by_cases hlt : OUTPUT_BUFFER_SIZE < total + line.length
          · rw [if_pos hlt] at hm
            simp at hm
          · rw [if_neg hlt] at hm ⊢
            exact ih _ _ (Nat.le_of_not_lt hlt) hm

/-- Helper: the truncation marker fires exactly past the buffer size. -/
theorem readLoop_marker_gt (sched : List (Option String)) (acc : List String)
    (total : Nat) (hm : (readLoop sched acc total).2.2 = true) :
    OUTPUT_BUFFER_SIZE < (readLoop sched acc total).2.1 := by
  induction sched generalizing acc total with
  | nil => simp [readLoop] at hm
  | cons e rest ih =>
      cases e with
      | none =>
          simp only [readLoop] at hm ⊢
          by_cases hacc : acc.isEmpty
          · rw [if_pos hacc] at hm ⊢
            exact ih _ _ hm
          · rw [if_neg hacc] at hm
            simp at hm
      | some line =>
          simp only [readLoop] at hm ⊢
          by_cases hlt : OUTPUT_BUFFER_SIZE < total + line.length
          · rw [if_pos hlt] at hm ⊢
            simpa using hlt
          · rw [if_neg hlt] at hm ⊢
            exact ih _ _ hm

/-- C7 (amended): `read_output` returns the no-output sentinel when no line
arrives within the timeout; accumulation stops as soon as the raw total of
line lengths exceeds `OUTPUT_BUFFER_SIZE` (4096), the truncation marker being
appended exactly then; whenever no marker was appended the raw total is within
4096 bytes.  (The final line may carry the returned text beyond 4096 bytes —
see the counterexample against the claim as stated.) -/
theorem claim_C7_amended_read_output (sched : List (Option String)) :
    ((∀ e ∈ sched, e = none) → read_output sched = "[no output within timeout]") ∧
    ((readLoop sched [] 0).2.2 = false →
      (readLoop sched [] 0).2.1 ≤ OUTPUT_BUFFER_SIZE) ∧
    ((readLoop sched [] 0).2.2 = true →
      OUTPUT_BUFFER_SIZE < (readLoop sched [] 0).2.1) := by
  refine ⟨?_, fun hm => readLoop_no_marker_le sched [] 0 (by decide) hm,
    fun hm => readLoop_marker_gt sched [] 0 hm⟩
  intro h
  unfold read_output
  rw [readLoop_all_none sched h 0]
  rfl

/-- Witness for C7 (amended): an all-empty polling schedule yields the
sentinel. -/
theorem claim_C7_amended_read_output_witness :
    read_output [none, none] = "[no output within timeout]" :=
  (claim_C7_amended_read_output [none, none]).1 (by simp)

/-- Counterexample to C7 as stated: one 5000-character line on the queue makes
`read_output` return well over `OUTPUT_BUFFER_SIZE` (4096) bytes — the source
appends the line that crosses the limit before breaking, so the returned text
is not bounded by the buffer size. -/
theorem claim_C7_counterexample :
    OUTPUT_BUFFER_SIZE < (read_output [some bigLine]).length := by
  have hdata : bigLine.data = List.replicate 5000 'a' := rfl
  have hlen : bigLine.length = 5000 := by
    show bigLine.data.length = 5000
    rw [hdata, List.length_replicate]
  have hr : pyRstrip bigLine = bigLine := by
    unfold pyRstrip
    rw [hdata, List.reverse_replicate, List.dropWhile_replicate,
      if_neg (by decide), List.reverse_replicate]
    rfl
  have hloop : readLoop [some bigLine] [] 0 =
      ([pyRstrip bigLine, truncationMarker], 0 + bigLine.length, true) := by
    simp only [readLoop, List.nil_append]
    rw [if_pos (by rw [hlen]; decide)]
    rfl
  unfold read_output
  rw [hloop]
  dsimp only
  rw [if_neg (by simp)]
  unfold joinWith
  rw [String.length_append, String.length_append, hr, hlen]
  decide

/-- Helper: the permission gate never touches the plan bookkeeping fields. -/
theorem ask_user_permission_fields (st : ExecState)
    (strategy : String → ToolArgs → PermReply) (name : String) (args : ToolArgs) :
    (ask_user_permission st strategy name args).1.significantActions = st.significantActions ∧
    (ask_user_permission st strategy name args).1.currentPlan = st.currentPlan := by
  unfold ask_user_permission
  split
  · exact ⟨rfl, rfl⟩
  · split
    · exact ⟨rfl, rfl⟩
    · rcases strategy name args <;> exact ⟨rfl, rfl⟩

/-- C9 (amended): the significant-action counter is incremented exactly by
dispatched calls to the tools in `significant_action_tools` (`read_file`,
`edit_file`, `create_file`, `delete_file`, `delete_path`, `mkdir`,
`run_command`) that pass the plan and permission gates while a plan exists; it
is left unchanged by every other non-`plan` tool, and also by listed tools
whenever the plan gate blocks the call, the permission gate denies it, or
`CURRENT_PLAN` is `None`; and it is reset to 0 when `plan(create)` succeeds or
`plan(update)` changes a task's status, while `plan(skip)` leaves it
unchanged. -/
theorem claim_C9_amended_sig_counter (st : ExecState) (name : String) (args : ToolArgs)
    (now : String) (strategy : String → ToolArgs → PermReply)
    (runner : String → ToolArgs → Bool × String) :
    (significant_action_tools.contains name = true → st.currentPlan ≠ none →
      ¬ (name ≠ "plan" ∧ st.planDecisionMade = false ∧ st.bypassPlanCheck = false) →
      (DESTRUCTIVE_TOOLS.contains name = false ∨
        (ask_user_permission st strategy name args).2.1 = true) →
      (execute_tool st name args now strategy runner).1.significantActions =
        st.significantActions + 1) ∧
    (significant_action_tools.contains name = false → name ≠ "plan" →
      (execute_tool st name args now strategy runner).1.significantActions =
        st.significantActions) ∧
    (∀ ts, args.action = some "create" → args.tasks = some ts → ts ≠ [] →
      (execute_tool st "plan" args now strategy runner).1.significantActions = 0) ∧
    (∀ p tid stat, args.action = some "update" → st.currentPlan = some p →
      args.task_id = some tid → args.status = some stat →
      (p.tasks.any (fun t => (t.id : Int) == tid)) = true →
      (execute_tool st "plan" args now strategy runner).1.significantActions = 0) ∧
    (args.action = some "skip" →
      (execute_tool st "plan" args now strategy runner).1.significantActions =
        st.significantActions) ∧
    ((name ≠ "plan" ∧ st.planDecisionMade = false ∧ st.bypassPlanCheck = false) →
      (execute_tool st name args now strategy runner).1.significantActions =
        st.significantActions) ∧
    (DESTRUCTIVE_TOOLS.contains name = true →
      (ask_user_permission st strategy name args).2.1 = false →
      ¬ (name ≠ "plan" ∧ st.planDecisionMade = false ∧ st.bypassPlanCheck = false) →
      (execute_tool st name args now strategy runner).1.significantActions =
        st.significantActions) ∧
    (st.currentPlan = none → name ≠ "plan" →
      (execute_tool st name args now strategy runner).1.significantActions =
        st.significantActions) := by
  refine ⟨?_, ?_, ?_, ?_, ?_, ?_, ?_, ?_⟩
  · intro hsig hplan hgate hperm
    have hnp : name ≠ "plan" := by
      intro h
      subst h
      simp [significant_action_tools] at hsig
    unfold execute_tool
    rw [if_neg hgate]
    by_cases hd : DESTRUCTIVE_TOOLS.contains name = true
    · rcases hq : ask_user_permission st strategy name args with ⟨st1, allowed, term, emsg⟩
      have hfields := ask_user_permission_fields st strategy name args
      rw [hq] at hfields
      have hallow : allowed = true := by
        rcases hperm with h | h
        · rw [hd] at h; cases h
        · rw [hq] at h; exact h
      rw [if_pos hd]
      dsimp only
      rw [if_neg (by simp [hallow]),
        if_pos (show significant_action_tools.contains name = true ∧ st1.currentPlan ≠ none
          from ⟨hsig, hfields.2 ▸ hplan⟩),
        if_neg hnp]
      dsimp only
      rw [hfields.1]
    · rw [if_neg hd]
      dsimp only
      rw [if_neg (by simp), if_pos (show _ ∧ _ from ⟨hsig, hplan⟩), if_neg hnp]
  · intro hsig hnp
    unfold execute_tool
    by_cases hgate : name ≠ "plan" ∧ st.planDecisionMade = false ∧ st.bypassPlanCheck = false
    · rw [if_pos hgate]
    · rw [if_neg hgate]
      by_cases hd : DESTRUCTIVE_TOOLS.contains name = true
      · rcases hq : ask_user_permission st strategy name args with ⟨st1, allowed, term, emsg⟩
        have hfields := ask_user_permission_fields st strategy name args
        rw [hq] at hfields
        rw [if_pos hd]
        dsimp only
        by_cases hallow : allowed = false
        · rw [if_pos hallow]
          by_cases hterm : term = true
          · rw [if_pos hterm]
            exact hfields.1
          · rw [if_neg hterm]
            exact hfields.1
        · rw [if_neg hallow]
          have hcond : ¬ (significant_action_tools.contains name = true ∧
              st1.currentPlan ≠ none) := by
            intro hc
            rw [hsig] at hc
            exact absurd hc.1 (by simp)
          rw [if_neg hcond, if_neg hnp]
          exact hfields.1
      · rw [if_neg hd]
        dsimp only
        have hcond : ¬ (significant_action_tools.contains name = true ∧
            st.currentPlan ≠ none) := by
          intro hc
          rw [hsig] at hc
          exact absurd hc.1 (by simp)
        rw [if_neg (by simp), if_neg hcond, if_neg hnp]
  · intro ts hact htasks hne
    unfold execute_tool
    rw [if_neg (show ¬ ("plan" ≠ "plan" ∧ st.planDecisionMade = false ∧
        st.bypassPlanCheck = false) from fun hc => hc.1 rfl),
      if_neg (show ¬ DESTRUCTIVE_TOOLS.contains "plan" = true by decide)]
    dsimp only
    rw [if_neg (show ¬ (true = false) by simp),
      if_neg (show ¬ (significant_action_tools.contains "plan" = true ∧
        st.currentPlan ≠ none) from fun hc => absurd hc.1 (by decide)),
      if_pos rfl]
    unfold planFn
    rw [hact, htasks]
    cases ts with
    | nil => exact absurd rfl hne
    | cons d ds => rfl
  · intro p tid stat hact hplan htid hstat hfound
    unfold execute_tool
    rw [if_neg (show ¬ ("plan" ≠ "plan" ∧ st.planDecisionMade = false ∧
        st.bypassPlanCheck = false) from fun hc => hc.1 rfl),
      if_neg (show ¬ DESTRUCTIVE_TOOLS.contains "plan" = true by decide)]
    dsimp only
    rw [if_neg (show ¬ (true = false) by simp),
      if_neg (show ¬ (significant_action_tools.contains "plan" = true ∧
        st.currentPlan ≠ none) from fun hc => absurd hc.1 (by decide)),
      if_pos rfl]
    unfold planFn
    rw [hact, hplan, htid, hstat]
    simp [hfound]
  · intro hact
    unfold execute_tool
    rw [if_neg (show ¬ ("plan" ≠ "plan" ∧ st.planDecisionMade = false ∧
        st.bypassPlanCheck = false) from fun hc => hc.1 rfl),
      if_neg (show ¬ DESTRUCTIVE_TOOLS.contains "plan" = true by decide)]
    dsimp only
    rw [if_neg (show ¬ (true = false) by simp),
      if_neg (show ¬ (significant_action_tools.contains "plan" = true ∧
        st.currentPlan ≠ none) from fun hc => absurd hc.1 (by decide)),
      if_pos rfl]
    unfold planFn
    rw [hact]
    rfl
  · intro hgate
    unfold execute_tool
    rw [if_pos hgate]
  · intro hd hdeny hgate
    unfold execute_tool
    rw [if_neg hgate, if_pos hd]
    rcases hq : ask_user_permission st strategy name args with ⟨st1, allowed, term, emsg⟩
    have hfields := ask_user_permission_fields st strategy name args
    rw [hq] at hfields hdeny
    dsimp only
    rw [if_pos (show allowed = false from hdeny)]
    by_cases hterm : term = true
    · rw [if_pos hterm]
      exact hfields.1
    · rw [if_neg hterm]
      exact hfields.1
  · intro hplan hnp
    unfold execute_tool
    by_cases hgate : name ≠ "plan" ∧ st.planDecisionMade = false ∧ st.bypassPlanCheck = false
    · rw [if_pos hgate]
    · rw [if_neg hgate]
      by_cases hd : DESTRUCTIVE_TOOLS.contains name = true
      · rcases hq : ask_user_permission st strategy name args with ⟨st1, allowed, term, emsg⟩
        have hfields := ask_user_permission_fields st strategy name args
        rw [hq] at hfields
        rw [if_pos hd]
        dsimp only
        by_cases hallow : allowed = false
        · rw [if_pos hallow]
          by_cases hterm : term = true
          · rw [if_pos hterm]
            exact hfields.1
          · rw [if_neg hterm]
            exact hfields.1
        · have hcond : ¬ (significant_action_tools.contains name = true ∧
              st1.currentPlan ≠ none) := by
            intro hc
            exact hc.2 (hfields.2.trans hplan)
          rw [if_neg hallow, if_neg hcond, if_neg hnp]
          exact hfields.1
      · rw [if_neg hd]
        dsimp only
        have hcond : ¬ (significant_action_tools.contains name = true ∧
            st.currentPlan ≠ none) := by
          intro hc
          exact hc.2 hplan
        rw [if_neg (show ¬ (true = false) by simp), if_neg hcond, if_neg hnp]

/-- Counterexample to C9 as stated: with a plan in place, a `read_file` call —
which mutates no file and runs no shell command (in this model its body is the
abstract runner, which cannot touch the file system) — increments the
significant-action counter from 0 to 1, while `start_session` — which runs a
shell — leaves it at 0. -/
theorem claim_C9_counterexample :
    (execute_tool stPlanW "read_file" {} "t" stratAllowW runnerW).1.significantActions
        = 1 ∧
    (execute_tool stPlanW "start_session" {} "t" stratAllowW runnerW).1.significantActions
        = 0 :=
  ⟨rfl, rfl⟩

/-- Witness for C9 (amended): a concrete permitted `edit_file` call with a
plan in place increments the counter. -/
theorem claim_C9_amended_sig_counter_witness :
    (execute_tool stPlanW "edit_file" {} "t" stratAllowW runnerW).1.significantActions
      = stPlanW.significantActions + 1 :=
  (claim_C9_amended_sig_counter stPlanW "edit_file" {} "t" stratAllowW runnerW).1
    (by decide) (by decide) (by decide) (Or.inr rfl)

/-- Helper: concatenation length is the sum of the parts. -/
theorem joinAll_length (l : List String) :
    (joinAll l).length = (l.map String.length).sum := by
  induction l with
  | nil => rfl
  | cons s ss ih => simp [joinAll, String.length_append, ih]

/-- Helper: the keepends split preserves total length. -/
theorem splitKeepEndsAux_total (cs : List Char) (acc : List Char) :
    ((splitKeepEndsAux cs acc).map String.length).sum = cs.length + acc.length := by
  induction cs generalizing acc with
  | nil =>
      by_cases h : acc = []
      · simp [splitKeepEndsAux, h]
      · simp [splitKeepEndsAux, h, String.length]
  | cons c cs ih =>
      by_cases h : c = '\n'
      · simp [splitKeepEndsAux, h, ih, String.length]
        omega
      · simp [splitKeepEndsAux, h, ih]
        omega

/-- Helper: the keepends split of a non-empty string is non-empty. -/
theorem splitKeepEndsAux_ne_nil (cs : List Char) (acc : List Char)
    (h : cs ≠ [] ∨ acc ≠ []) : splitKeepEndsAux cs acc ≠ [] := by
  induction cs generalizing acc with
  | nil =>
      rcases h with h | h
      · exact absurd rfl h
      · simp [splitKeepEndsAux, h]
  | cons c cs ih =>
      by_cases hc : c = '\n'
      · simp [splitKeepEndsAux, hc]
      · simp only [splitKeepEndsAux, if_neg hc]
        exact ih (c :: acc) (Or.inr (by simp))

/-- Helper: every numbered line gains at least two characters of prefix. -/
theorem numberLines_total_ge (ls : List String) (n : Nat) :
    (ls.map String.length).sum + 2 * ls.length ≤
      ((numberLines ls n).map String.length).sum := by
  induction ls generalizing n with
  | nil => simp [numberLines]
  | cons l ll ih =>
      simp only [numberLines, List.map_cons, List.sum_cons, String.length_append]
      have := ih (n + 1)
      simp only [List.map_cons, List.sum_cons, List.length_cons]
      have h2 : (": " : String).length = 2 := rfl
      omega

/-- Helper: a string is empty exactly when its character list is. -/
theorem string_data_eq_nil (s : String) (h : s.data = []) : s = "" := by
  cases s
  simp_all

/-- Helper: line-numbering a non-empty content strictly lengthens it, so the
rendered content is never the raw content. -/
theorem with_line_numbers_longer (s : String) (h : s ≠ "") :
    s.length < (_with_line_numbers s 1).length := by
  unfold _with_line_numbers
  rw [if_neg h]
  have hne : splitKeepEnds s ≠ [] := by
    unfold splitKeepEnds
    refine splitKeepEndsAux_ne_nil s.data [] (Or.inl ?_)
    intro hd
    exact h (string_data_eq_nil s hd)
  have htot : ((splitKeepEnds s).map String.length).sum = s.length := by
    unfold splitKeepEnds
    rw [splitKeepEndsAux_total]
    simp only [List.length_nil, Nat.add_zero]
    rfl
  have hge := numberLines_total_ge (splitKeepEnds s) (max 1 1)
  rw [joinAll_length]
  have hlen : 1 ≤ (splitKeepEnds s).length := by
    cases hsp : splitKeepEnds s
    · exact absurd hsp hne
    · simp
  omega

/-- C10: `read_file(with_metadata=True)` hashes the line-number-prefixed
content it renders, not the raw file bytes; for a non-empty file that hash
differs from the whole-file hash, so passing it as an `edit_file` precondition
always fails (the file stays unchanged).  `_compute_sha256` is modelled as an
abstract hash assumed injective (collision-freedom) with non-empty hex output. -/
theorem claim_C10_metadata_hash (hash : String → String) (trunc : String → Nat → String)
    (udiff : String → String → String) (rm : RegexFn) (path path2 mtime : String)
    (file : String) (hinj : Function.Injective hash) (hnem : ∀ s, hash s ≠ "")
    (hfile : file ≠ "") :
    ∃ m : ReadMeta,
      read_file hash trunc path (some file) mtime none none none true =
        .ok (.meta m) ∧
      m.sha256 = hash (_with_line_numbers file 1) ∧
      m.sha256 ≠ hash file ∧
      (∀ (hunks : Option (List Hunk)) (dry : Bool) (mode content : Option String),
        (∃ msg, (edit_file rm hash udiff path2 (some file) hunks
            (some { file_sha256 := some m.sha256 }) dry mode content).1 = .error msg) ∧
        (edit_file rm hash udiff path2 (some file) hunks
            (some { file_sha256 := some m.sha256 }) dry mode content).2 = some file) := by
  have hlonger := with_line_numbers_longer file hfile
  have hneq : _with_line_numbers file 1 ≠ file := by
    intro he
    rw [he] at hlonger
    omega
  have hsha : hash (_with_line_numbers file 1) ≠ hash file := fun he => hneq (hinj he)
  refine ⟨_, rfl, rfl, hsha, ?_⟩
  intro hunks dry mode content
  exact edit_file_precondition_aborts rm hash udiff path2 (some file) hunks
    { file_sha256 := some (hash (_with_line_numbers file 1)) } dry mode content
    (hnem _) (Ne.symm hsha)

/-- Helper: the concrete hash fixture is injective. -/
theorem hashW_injective : Function.Injective hashW := by
  intro a b h
  have hcons : '#' :: a.data = '#' :: b.data := congrArg String.data h
  have hdata : a.data = b.data := by injection hcons
  cases a
  cases b
  simp_all

/-- Helper: the concrete hash fixture never returns the empty string. -/
theorem hashW_ne_empty : ∀ s, hashW s ≠ "" := by
  intro s h
  have hdata : '#' :: s.data = [] := congrArg String.data h
  exact List.cons_ne_nil _ _ hdata

/-- Witness for C10 at the one-byte file `y`. -/
theorem claim_C10_metadata_hash_witness :
    ∃ m : ReadMeta,
      read_file hashW truncW "p" (some "y") "mt" none none none true =
        .ok (.meta m) ∧
      m.sha256 = hashW (_with_line_numbers "y" 1) ∧
      m.sha256 ≠ hashW "y" ∧
      (∀ (hunks : Option (List Hunk)) (dry : Bool) (mode content : Option String),
        (∃ msg, (edit_file rmW hashW udiffW "q" (some "y") hunks
            (some { file_sha256 := some m.sha256 }) dry mode content).1 = .error msg) ∧
        (edit_file rmW hashW udiffW "q" (some "y") hunks
            (some { file_sha256 := some m.sha256 }) dry mode content).2 = some "y") :=
  claim_C10_metadata_hash hashW truncW udiffW rmW "p" "q" "mt" "y"
    hashW_injective hashW_ne_empty (by decide)
